import Mathlib

/-
Verification development for the kimimaro utility module
(`kimimaro/utility.py`): per-object region extraction and per-vertex
cross-sectional-area annotation of skeletons.

Floating-point values are modelled as rationals; machine externals
(`xs3d.cross_sectional_area`, `fill_voids.fill`, the float square root
used by `np.linalg.norm`) are modelled as parameters collected in an
`Externals` structure, faithful to their interfaces.
-/

/-- Physical-space 3D vector (models a float triple). -/
abbrev Vec3 : Type := ℚ × ℚ × ℚ

/-- Integer voxel coordinate (models an int triple). -/
abbrev IVec3 : Type := ℤ × ℤ × ℤ

/-- Componentwise division of a vector by a scalar (numpy broadcast `/`). -/
def vdivQ (v : Vec3) (q : ℚ) : Vec3 :=
  (v.1 / q, v.2.1 / q, v.2.2 / q)

/-- Cast an integer voxel coordinate to a float vector
(models `.astype(np.float32)`). -/
def ivecToVec (v : IVec3) : Vec3 :=
  ((v.1 : ℚ), (v.2.1 : ℚ), (v.2.2 : ℚ))

/-- `np.round` on a rational: round half to even (banker's rounding). -/
def roundHE (q : ℚ) : ℤ :=
  let f := ⌊q⌋
  let r := q - (f : ℚ)
  if r < 1/2 then f
  else if 1/2 < r then f + 1
  else if Even f then f else f + 1

/-- Running prefix sums of a list of vectors starting from `s`
(models `np.cumsum` along axis 0). -/
def cumsumFrom (s : Vec3) : List Vec3 → List Vec3
  | [] => []
  | x :: xs => (s + x) :: cumsumFrom (s + x) xs

/-- `np.cumsum` along axis 0. -/
def cumsum (l : List Vec3) : List Vec3 := cumsumFrom 0 l

/-- `moving_average(a, n)` from `kimimaro/utility.py` (lines 192-205):
rejects `n <= 0`, returns `a` unchanged for `n == 1`, otherwise edge-pads
with `(len(a) - (len(a) - n + 1)) / 2` copies of the boundary elements
(one extra prepended copy when that count is fractional), forms prefix
sums and returns the length-preserving windowed mean
`ret[n - 1:] / n` with `ret[i] = c[i] - c[i - n]` for `i >= n`.
Reading `a[0]` of an empty input is an index error, as in numpy. -/
def movingAverage (a : List Vec3) (n : ℤ) : Except String (List Vec3) :=
  if n ≤ 0 then .error "ValueError: Window size must be >= 1."
  else if n = 1 then .ok a
  else
    match a with
    | [] => .error "IndexError: moving average of an empty sequence"
    | a0 :: rest =>
      let n' := n.toNat
      let mirror := (n' - 1) / 2
      let extra := (n' - 1) % 2
      let last := (a0 :: rest).getLastD a0
      let padded := List.replicate (mirror + extra) a0 ++ (a0 :: rest)
        ++ List.replicate mirror last
      let c := cumsum padded
      Except.ok ((List.range (c.length - (n' - 1))).map (fun j =>
        vdivQ ((c.getD (n' - 1 + j) 0) -
          (if j = 0 then 0 else c.getD (j - 1) 0)) (n : ℚ)))

/-- A labeled 3D volume: shape, voxel data, whether the dtype is boolean
(`all_labels.dtype == bool`, with `true` read as label 1), and whether the
memory layout is Fortran order (`not labels.flags['C_CONTIGUOUS']`). -/
structure Volume where
  sx : ℕ
  sy : ℕ
  sz : ℕ
  data : ℕ → ℕ → ℕ → ℕ
  isBool : Bool
  fortran : Bool

/-- `labels.T`: reversed shape, swapped indices, flipped memory order. -/
def Volume.transpose (v : Volume) : Volume :=
  ⟨v.sz, v.sy, v.sx, fun i j k => v.data k j i, v.isBool, !v.fortran⟩

/-- One slice triple as returned by `scipy.ndimage.find_objects`:
`(start, stop)` per axis, in axis order. -/
abbrev Slice3 : Type := (ℕ × ℕ) × (ℕ × ℕ) × (ℕ × ℕ)

/-- `slcs[::-1]`: reverse the axis order of a slice triple. -/
def revSlice (s : Slice3) : Slice3 := (s.2.2, s.2.1, s.1)

/-- Does label `L` occur anywhere in the `i`-th x-slab? -/
def occX (v : Volume) (L : ℕ) (i : ℕ) : Bool :=
  (List.range v.sy).any fun j => (List.range v.sz).any fun k =>
    v.data i j k == L

/-- Does label `L` occur anywhere in the `j`-th y-slab? -/
def occY (v : Volume) (L : ℕ) (j : ℕ) : Bool :=
  (List.range v.sx).any fun i => (List.range v.sz).any fun k =>
    v.data i j k == L

/-- Does label `L` occur anywhere in the `k`-th z-slab? -/
def occZ (v : Volume) (L : ℕ) (k : ℕ) : Bool :=
  (List.range v.sx).any fun i => (List.range v.sy).any fun j =>
    v.data i j k == L

/-- Ascending list of x-indices whose slab contains label `L`. -/
def axX (v : Volume) (L : ℕ) : List ℕ := (List.range v.sx).filter (occX v L)

/-- Ascending list of y-indices whose slab contains label `L`. -/
def axY (v : Volume) (L : ℕ) : List ℕ := (List.range v.sy).filter (occY v L)

/-- Ascending list of z-indices whose slab contains label `L`. -/
def axZ (v : Volume) (L : ℕ) : List ℕ := (List.range v.sz).filter (occZ v L)

/-- Minimal covering `(start, stop)` range of an ascending occupancy list:
first element to last element plus one; `none` when the list is empty. -/
def axRange (l : List ℕ) : Option (ℕ × ℕ) :=
  match l.head?, l.getLast? with
  | some a, some b => some (a, b + 1)
  | _, _ => none

/-- Minimal bounding slices of label `L` in `v`, or `none` if absent. -/
def sliceFor (v : Volume) (L : ℕ) : Option Slice3 :=
  match axRange (axX v L), axRange (axY v L), axRange (axZ v L) with
  | some px, some py, some pz => some (px, py, pz)
  | _, _, _ => none

/-- Largest voxel value present in the volume (0 for an empty volume). -/
def maxLabel (v : Volume) : ℕ :=
  (List.range v.sx).foldl (fun m i =>
    (List.range v.sy).foldl (fun m2 j =>
      (List.range v.sz).foldl (fun m3 k => max m3 (v.data i j k)) m2) m) 0

/-- Modelled from the spec (§6 `findBoundingBoxes`): the external primitive
`scipy.ndimage.find_objects` — for each label `L` in `[1, max]`, either the
minimal bounding slices of `L` or `None`, indexed by `L - 1`. -/
def scipyFindObjects (v : Volume) : List (Option Slice3) :=
  (List.range (maxLabel v)).map (fun m => sliceFor v (m + 1))

/-- `find_objects(labels)` from `kimimaro/utility.py` (lines 31-41):
run the scipy primitive directly on C-ordered arrays; otherwise run it on
the transpose and reverse each returned slice triple
(`(slcs and slcs[::-1])` maps `None` to `None`). -/
def find_objects (v : Volume) : List (Option Slice3) :=
  if v.fortran = false then scipyFindObjects v
  else (scipyFindObjects v.transpose).map (fun o => o.map revSlice)

/-- One entry of `skel.extra_attributes` (the `prop` dict, lines 83-87). -/
structure AttrProp where
  id : String
  data_type : String
  num_components : ℕ
deriving DecidableEq

/-- The attribute descriptor appended by `cross_sectional_area`. -/
def csaProp : AttrProp := ⟨"cross_sectional_area", "float32", 1⟩

/-- A cloudvolume skeleton as used by this module: its label id, vertex
positions (physical space), the path decomposition returned by
`skel.paths()` (a dependency-provided capability, spec §9 — carried here
as data), its attribute-descriptor list, and the two optional per-vertex
arrays this module writes. -/
structure Skeleton where
  id : ℕ
  vertices : List Vec3
  paths : List (List Vec3)
  extra_attributes : List AttrProp
  cross_sectional_area : Option (List ℚ)
  cross_sectional_area_contacts : Option (List ℕ)
deriving DecidableEq

/-- The cropped binary mask `binimg`: its shape and voxel predicate. -/
structure Mask where
  shape : IVec3
  data : IVec3 → Bool

/-- External collaborators, modelled at their interfaces (spec §6):
the float square root used by `np.linalg.norm`, `fill_voids.fill`, and
the plane-sampling primitive `xs3d.cross_sectional_area` returning
`(area, contact byte)`. -/
structure Externals where
  sqrt : ℚ → ℚ
  fill : Mask → Mask
  sampler : Mask → IVec3 → Vec3 → Vec3 → ℚ × ℕ

/-- A cloudvolume `Bbox` in voxel-index space. -/
structure Bbox where
  minpt : IVec3
  maxpt : IVec3
deriving DecidableEq

/-- `Bbox.from_slices`: starts become the lower corner, stops the upper. -/
def bboxFromSlices (s : Slice3) : Bbox :=
  ⟨((s.1.1 : ℤ), (s.2.1.1 : ℤ), (s.2.2.1 : ℤ)),
   ((s.1.2 : ℤ), (s.2.1.2 : ℤ), (s.2.2.2 : ℤ))⟩

/-- `roi.volume()`: product of the edge lengths. -/
def Bbox.volume (b : Bbox) : ℤ :=
  (b.maxpt.1 - b.minpt.1) * ((b.maxpt.2.1 - b.minpt.2.1) *
    (b.maxpt.2.2 - b.minpt.2.2))

/-- `roi.grow(1)`: expand by one voxel on every face. -/
def Bbox.grow1 (b : Bbox) : Bbox :=
  ⟨(b.minpt.1 - 1, b.minpt.2.1 - 1, b.minpt.2.2 - 1),
   (b.maxpt.1 + 1, b.maxpt.2.1 + 1, b.maxpt.2.2 + 1)⟩

/-- `roi.minpt = Vec.clamp(roi.minpt, Vec(0,0,0), roi.maxpt)`. -/
def clampBox (b : Bbox) : Bbox :=
  ⟨(min (max b.minpt.1 0) b.maxpt.1,
    min (max b.minpt.2.1 0) b.maxpt.2.1,
    min (max b.minpt.2.2 0) b.maxpt.2.2), b.maxpt⟩

/-- `np.asfortranarray(all_labels[slices] == label)`: crop the volume to
the box and binarize against the label. Numpy silently clips slice stops
to the array bounds, so each crop dimension is
`max 0 (min stop size - min start size)`. -/
def cropMask (v : Volume) (b : Bbox) (label : ℕ) : Mask :=
  ⟨(max 0 (min b.maxpt.1 (v.sx : ℤ) - min b.minpt.1 (v.sx : ℤ)),
    max 0 (min b.maxpt.2.1 (v.sy : ℤ) - min b.minpt.2.1 (v.sy : ℤ)),
    max 0 (min b.maxpt.2.2 (v.sz : ℤ) - min b.minpt.2.2 (v.sz : ℤ))),
   fun p => decide (v.data (b.minpt.1 + p.1).toNat (b.minpt.2.1 + p.2.1).toNat
     (b.minpt.2.2 + p.2.2).toNat = label)⟩

/-- `(w / anisotropy).round().astype(int)` for one vertex. -/
def rastV (aniso : Vec3) (p : Vec3) : IVec3 :=
  (roundHE (p.1 / aniso.1), roundHE (p.2.1 / aniso.2.1),
   roundHE (p.2.2 / aniso.2.2))

/-- Index of the LAST occurrence of `c` in the list, or `none`: the
semantics of the dict comprehension
`{ tuple(v): i for i, v in enumerate(all_verts) }` (line 136), where a
later vertex with the same rasterized coordinate overwrites the entry. -/
def lastIdxOf : List IVec3 → IVec3 → Option ℕ
  | [], _ => none
  | v :: vs, c =>
    match lastIdxOf vs c with
    | some i => some (i + 1)
    | none => if v = c then some 0 else none

/-- The coordinate-to-vertex-index map built from the rasterized vertices. -/
def buildMapping (verts : List IVec3) : IVec3 → Option ℕ :=
  fun c => lastIdxOf verts c

/-- `normal /= np.linalg.norm(normal)` (lines 159-161 operate on views, so
every row of `normals` is normalized in place before the vertex loop). -/
def normalizeRow (sq : ℚ → ℚ) (v : Vec3) : Vec3 :=
  vdivQ v (sq (v.1 * v.1 + v.2.1 * v.2.1 + v.2.2 * v.2.2))

/-- The boundary guard of the vertex loop (line 164):
`np.any(vert < 0) or np.any(vert > shape)`. Note the upper comparison is
a strict `>` against `shape` itself, not `shape - 1`. -/
def outOfCrop (v : IVec3) (shape : IVec3) : Bool :=
  (decide (v.1 < 0) || decide (v.2.1 < 0) || decide (v.2.2 < 0)) ||
  (decide (shape.1 < v.1) || decide (shape.2.1 < v.2.1) ||
    decide (shape.2.2 < v.2.2))

/-- Checked list read: models Python `l[i]` raising `IndexError`. -/
def readE (l : List α) (i : ℕ) (msg : String) : Except String α :=
  match l.get? i with
  | some x => .ok x
  | none => .error msg

/-- Checked list write: models Python `l[i] = x` raising `IndexError`. -/
def writeE (l : List α) (i : ℕ) (x : α) (msg : String) :
    Except String (List α) :=
  if i < l.length then .ok (l.set i x) else .error msg

/-- `enumerate` starting at `i`. -/
def enumFrom (i : ℕ) : List α → List (ℕ × α)
  | [] => []
  | x :: xs => (i, x) :: enumFrom (i + 1) xs

/-- Error-propagating left fold (models a Python `for` loop over a body
that may raise). -/
def foldME (f : σ → α → Except String σ) : σ → List α → Except String σ
  | s, [] => .ok s
  | s, x :: xs =>
    match f s x with
    | .error e => .error e
    | .ok s2 => foldME f s2 xs

/-- Error-propagating map (models a Python `for` loop collecting results). -/
def mapME (f : α → Except String β) : List α → Except String (List β)
  | [] => .ok []
  | x :: xs =>
    match f x with
    | .error e => .error e
    | .ok y =>
      match mapME f xs with
      | .error e => .error e
      | .ok ys => .ok (y :: ys)

/-- The sampling state threaded through the vertex loops: the two
per-vertex arrays plus a log of the coordinates at which the sampling
primitive was actually invoked (instrumentation; the source mutates
`areas`/`contacts` in place). -/
structure SampState where
  areas : List ℚ
  contacts : List ℕ
  log : List IVec3
deriving DecidableEq

/-- One iteration of the vertex loop (lines 163-175): skip when the
boundary guard fires; otherwise look up the vertex's representative index
(`idx = mapping[tuple(vert)]`, KeyError if absent), fetch the smoothed
normal, and recompute iff the stored area is zero or, in repair mode, the
stored contact byte is non-zero (short-circuit as in Python), writing the
sampler's results back at the representative index and logging the call. -/
def visitVertex (ext : Externals) (repair : Bool) (binimg : Mask)
    (aniso : Vec3) (mapping : IVec3 → Option ℕ) (normals : List Vec3)
    (st : SampState) (iv : ℕ × IVec3) : Except String SampState :=
  if outOfCrop iv.2 binimg.shape then .ok st
  else
    match mapping iv.2 with
    | none => .error "KeyError: vertex coordinate missing from mapping"
    | some idx =>
      match readE normals iv.1 "IndexError: normals" with
      | .error e => .error e
      | .ok normal =>
        match readE st.areas idx "IndexError: areas" with
        | .error e => .error e
        | .ok a =>
          match (if a = 0 then Except.ok true
                 else if repair then
                   match readE st.contacts idx "IndexError: contacts" with
                   | .error e => Except.error e
                   | .ok c => Except.ok (decide (0 < c))
                 else Except.ok false : Except String Bool) with
          | .error e => .error e
          | .ok cond =>
            if cond then
              match writeE st.contacts idx
                  (ext.sampler binimg iv.2 normal aniso).2
                  "IndexError: contacts" with
              | .error e => .error e
              | .ok cs =>
                .ok ⟨st.areas.set idx (ext.sampler binimg iv.2 normal aniso).1,
                  cs, st.log ++ [iv.2]⟩
            else .ok st

/-- Rasterize a path the same way as the vertex array (lines 152-153). -/
def rastPath (aniso : Vec3) (minpt : IVec3) (path : List Vec3) :
    List IVec3 :=
  path.map (fun p => rastV aniso p - minpt)

/-- Lines 155-161: forward differences of the rasterized path
(`path[1:] - path[:-1]` as floats), padding with a copy of the last
direction (`normals[-1]` raises IndexError on an empty difference array,
i.e. for a path with fewer than 2 vertices), rolling-average smoothing,
then in-place row normalization. -/
def computeNormals (ext : Externals) (window : ℤ) (ipath : List IVec3) :
    Except String (List Vec3) :=
  let diffs := (ipath.zip ipath.tail).map (fun p => ivecToVec (p.2 - p.1))
  match diffs with
  | [] => .error "IndexError: direction array of a path with fewer than 2 vertices is empty"
  | d0 :: rest =>
    match movingAverage ((d0 :: rest) ++ [(d0 :: rest).getLastD d0]) window with
    | .error e => .error e
    | .ok sm => .ok (sm.map (normalizeRow ext.sqrt))

/-- Process one path (lines 151-175): rasterize, derive smoothed unit
normals, then run the vertex loop over `enumerate(path)`. -/
def runPath (ext : Externals) (repair : Bool) (binimg : Mask)
    (aniso : Vec3) (mapping : IVec3 → Option ℕ) (window : ℤ)
    (minpt : IVec3) (st : SampState) (path : List Vec3) :
    Except String SampState :=
  let ipath := rastPath aniso minpt path
  match computeNormals ext window ipath with
  | .error e => .error e
  | .ok normals =>
    foldME (fun s p => visitVertex ext repair binimg aniso mapping normals s p)
      st (enumFrom 0 ipath)

/-- Lines 138-143: in repair mode the arrays are the skeleton's existing
attributes (AttributeError when absent, never freshly allocated);
otherwise fresh zero arrays of one entry per vertex. -/
def getArrays (repair : Bool) (skel : Skeleton) (n : ℕ) :
    Except String (List ℚ × List ℕ) :=
  if repair then
    match skel.cross_sectional_area with
    | none => .error "AttributeError: cross_sectional_area"
    | some as =>
      match skel.cross_sectional_area_contacts with
      | none => .error "AttributeError: cross_sectional_area_contacts"
      | some cs => .ok (as, cs)
  else .ok (List.replicate n (0 : ℚ), List.replicate n (0 : ℕ))

/-- Lines 177-187: append the attribute descriptor unless one with id
`cross_sectional_area` is already present, then assign both arrays. -/
def finishSkel (skel : Skeleton) (st : SampState) : Skeleton :=
  { skel with
    extra_attributes :=
      if skel.extra_attributes.any (fun p => p.id == "cross_sectional_area")
      then skel.extra_attributes
      else skel.extra_attributes ++ [csaProp],
    cross_sectional_area := some st.areas,
    cross_sectional_area_contacts := some st.contacts }

/-- Lines 128-187 for one skeleton, after the ROI has been resolved:
build the cropped mask (optionally hole-filled), rasterize the vertices,
build the coordinate map, obtain the arrays, run every path, and attach
the results. Returns the annotated skeleton and the sampling log. -/
def processCore (ext : Externals) (vol : Volume) (aniso : Vec3)
    (window : ℤ) (fillHoles repair : Bool) (roi : Bbox) (label : ℕ)
    (skel : Skeleton) : Except String (Skeleton × List IVec3) :=
  let binimg0 := cropMask vol roi label
  let binimg := if fillHoles then ext.fill binimg0 else binimg0
  let allVerts := skel.vertices.map (fun p => rastV aniso p - roi.minpt)
  let mapping := buildMapping allVerts
  match getArrays repair skel allVerts.length with
  | .error e => .error e
  | .ok arrs =>
    match foldME (runPath ext repair binimg aniso mapping window roi.minpt)
        ⟨arrs.1, arrs.2, []⟩ skel.paths with
    | .error e => .error e
    | .ok stF => .ok (finishSkel skel stF, stF.log)

/-- Lines 107-187 for one skeleton: resolve the effective label (constant
1 for boolean volumes, else the skeleton id; background 0 is skipped),
remap it (`remapping[label]` raises KeyError when the id is absent from
the mapping), look up the precomputed bounding box (`None` means skip),
skip degenerate (`volume <= 1`) boxes, then grow, clamp and process. -/
def processSkeleton (ext : Externals) (vol : Volume)
    (remap : ℕ → Option ℕ) (allSlices : List (Option Slice3))
    (aniso : Vec3) (window : ℤ) (fillHoles repair : Bool)
    (skel : Skeleton) : Except String (Skeleton × List IVec3) :=
  let label0 : ℕ := if vol.isBool then 1 else skel.id
  if label0 = 0 then .ok (skel, [])
  else
    match remap label0 with
    | none => .error "KeyError: skeleton label missing from remapping"
    | some label =>
      match allSlices.get? (label - 1) with
      | none => .error "IndexError: all_slices"
      | some none => .ok (skel, [])
      | some (some slcs) =>
        let roi0 := bboxFromSlices slcs
        if roi0.volume ≤ 1 then .ok (skel, [])
        else processCore ext vol aniso window fillHoles repair
          (clampBox roi0.grow1) label skel

/-- The fixed boolean remapping `{True: 1, False: 0, 1: 1, 0: 0}`
(line 100; `True`/`1` and `False`/`0` coincide as dict keys). -/
def boolRemap : ℕ → Option ℕ :=
  fun l => if l = 0 then some 0 else if l = 1 then some 1 else none

/-- The non-zero labels present in the volume, in C scan order of first
appearance. -/
def presentLabels (v : Volume) : List ℕ :=
  (List.range v.sx).foldl (fun acc i =>
    (List.range v.sy).foldl (fun acc2 j =>
      (List.range v.sz).foldl (fun acc3 k =>
        let x := v.data i j k
        if x = 0 then acc3 else if x ∈ acc3 then acc3 else acc3 ++ [x])
        acc2) acc) []

/-- Modelled from the spec (§6 `renumber`): the external
`fastremap.renumber` — remap every present id to a dense positive id
(zero preserved) and return the forward mapping, which contains exactly
the ids present in the volume; looking up an absent id is a KeyError. -/
def renumber (v : Volume) : Volume × (ℕ → Option ℕ) :=
  let present := presentLabels v
  (⟨v.sx, v.sy, v.sz,
    fun i j k =>
      match present.findIdx? (fun l => l == v.data i j k) with
      | some m => m + 1
      | none => 0,
    v.isBool, v.fortran⟩,
   fun l => if l = 0 then some 0
     else (present.findIdx? (fun m => m == l)).map (fun m => m + 1))

/-- `cross_sectional_area(all_labels, skeletons, ...)` (lines 43-189) for
a list of skeletons: renumber the labels (boolean volumes use the fixed
mapping instead), precompute the per-label bounding boxes, then process
each skeleton in order. Returns the annotated skeletons and, as
instrumentation, each skeleton's sampling log. -/
def annotate (ext : Externals) (vol : Volume) (skels : List Skeleton)
    (aniso : Vec3) (window : ℤ) (fillHoles repair : Bool) :
    Except String (List Skeleton × List (List IVec3)) :=
  let vr := if vol.isBool then (vol, boolRemap) else renumber vol
  let slcs := find_objects vr.1
  match mapME (processSkeleton ext vr.1 vr.2 slcs aniso window fillHoles
      repair) skels with
  | .error e => .error e
  | .ok pairs => .ok (pairs.map Prod.fst, pairs.map Prod.snd)

/-- Test externals: identity square root, identity hole-filling, and a
sampler constantly reporting area 7 with no boundary contact. -/
def E0 : Externals := ⟨id, id, fun _ _ _ _ => (7, 0)⟩

/-- Unit anisotropy. -/
def vA : Vec3 := (1, 1, 1)

/-- A 4×1×1 integer-labeled volume whose voxels x = 1, 2 carry label 1. -/
def V0 : Volume :=
  ⟨4, 1, 1, fun i _ _ => if i = 1 ∨ i = 2 then 1 else 0, false, false⟩

/-- A two-vertex skeleton for label 1 with a single two-vertex path. -/
def S0 : Skeleton :=
  ⟨1, [(1, 0, 0), (2, 0, 0)], [[(1, 0, 0), (2, 0, 0)]], [], none, none⟩

/-- `S0` after one normal-mode annotation pass under `E0`. -/
def S0A : Skeleton :=
  ⟨1, [(1, 0, 0), (2, 0, 0)], [[(1, 0, 0), (2, 0, 0)]], [csaProp],
    some [7, 7], some [0, 0]⟩

/-- A previously-annotated skeleton whose stored areas and contact bytes
are all zero (as after an annotation round that never sampled). -/
def S1r : Skeleton :=
  ⟨1, [(1, 0, 0), (2, 0, 0)], [[(1, 0, 0), (2, 0, 0)]], [csaProp],
    some [0, 0], some [0, 0]⟩

/-- Two physically distinct vertices that rasterize to the same voxel. -/
def S3 : Skeleton :=
  ⟨1, [(1, 0, 0), (7/5, 0, 0)], [[(1, 0, 0), (7/5, 0, 0)]], [], none, none⟩

/-- A skeleton whose label 2 has no voxels in `V0`. -/
def S4 : Skeleton := ⟨2, [(1, 0, 0)], [], [], none, none⟩

/-- A skeleton whose only path has a single vertex. -/
def S5 : Skeleton := ⟨1, [(1, 0, 0)], [[(1, 0, 0)]], [], none, none⟩

/-- A skeleton with a vertex rasterizing exactly to the crop shape (4 on
the x axis, where the crop shape is (4,1,1)). -/
def S6 : Skeleton :=
  ⟨1, [(2, 0, 0), (3, 0, 0), (4, 0, 0)],
    [[(2, 0, 0), (3, 0, 0), (4, 0, 0)]], [], none, none⟩

/-- `S3` after one normal-mode annotation pass under `E0`: only the
representative (last) colocated vertex's entry is written. -/
def S3A : Skeleton :=
  ⟨1, [(1, 0, 0), (7/5, 0, 0)], [[(1, 0, 0), (7/5, 0, 0)]], [csaProp],
    some [0, 7], some [0, 0]⟩

/-- `S6` after one normal-mode annotation pass under `E0`: all three
vertices, including the one at the crop shape, were sampled. -/
def S6A : Skeleton :=
  ⟨1, [(2, 0, 0), (3, 0, 0), (4, 0, 0)],
    [[(2, 0, 0), (3, 0, 0), (4, 0, 0)]], [csaProp],
    some [7, 7, 7], some [0, 0, 0]⟩

/-- Invariant of the normal-mode sampling loop: every coordinate was
logged (sampled) at most once, and a logged coordinate's representative
area entry is non-zero. -/
def goodInv (mapping : IVec3 → Option ℕ) (st : SampState) : Prop :=
  (∀ c, st.log.count c ≤ 1) ∧
  ∀ c, c ∈ st.log →
    ∃ i a, mapping c = some i ∧ st.areas.get? i = some a ∧ a ≠ 0

/-- C1: the claim says repair mode recomputes a vertex only if its prior
`contacts` value was non-zero and leaves every zero-contact vertex
bit-for-bit unchanged. The code's guard (line 170) is
`areas[idx] == 0 or (repair_contacts and contacts[idx] > 0)`, so in
repair mode a vertex whose stored area is zero is recomputed even though
its stored contact byte is zero — contradicting the function's own
docstring ("only examine vertices that have a nonzero value for
skel.cross_sectional_area_contacts"). Here both vertices of `S1r` have
stored contacts 0 and stored area 0, yet the repair pass samples both
(the log lists both coordinates) and rewrites their areas from 0 to 7. -/
theorem repair_mode_resamples_zero_contact_vertices :
    S1r.cross_sectional_area = some [0, 0] ∧
    S1r.cross_sectional_area_contacts = some [0, 0] ∧
    annotate E0 V0 [S1r] vA 1 false true =
      .ok ([S0A], [[(1, 0, 0), (2, 0, 0)]]) ∧
    S0A.cross_sectional_area = some [7, 7] :=
  ⟨rfl, rfl, by with_unfolding_all rfl, rfl⟩

/-- C2 counterexample: the claim's mechanism is false. In normal mode the
arrays are freshly zero-allocated on every call (line 142), so the second
call does NOT skip vertices whose stored area from the first call is
non-zero: after the first call wrote areas `[7, 7]`, the second call's
sampling log again lists both vertices — they were resampled, not
skipped. (The identical-output conclusion itself survives, by
determinism; see the amended theorem.) -/
theorem second_pass_resamples_nonzero_area_vertices :
    annotate E0 V0 [S0] vA 1 false false =
      .ok ([S0A], [[(1, 0, 0), (2, 0, 0)]]) ∧
    S0A.cross_sectional_area = some [7, 7] ∧
    annotate E0 V0 [S0A] vA 1 false false =
      .ok ([S0A], [[(1, 0, 0), (2, 0, 0)]]) :=
  ⟨by with_unfolding_all rfl, rfl, by with_unfolding_all rfl⟩

/-- C3 counterexample: two skeleton vertices rasterize to the same voxel
`(1,0,0)`, the sampler is invoked once there (log `[(1,0,0)]`), but the
two colocated vertices do NOT carry the same written values in the
per-vertex output arrays: the dict comprehension keeps only the LAST
vertex index per coordinate, so the result is `[0, 7]` — vertex 0's
entry is never written and stays 0. -/
theorem colocated_vertices_carry_distinct_values :
    rastV vA (1, 0, 0) = rastV vA (7/5, 0, 0) ∧
    annotate E0 V0 [S3] vA 1 false false = .ok ([S3A], [[(1, 0, 0)]]) ∧
    S3A.cross_sectional_area = some [0, 7] :=
  ⟨by with_unfolding_all rfl, by with_unfolding_all rfl, rfl⟩

/-- C4: the claim says a skeleton whose label has zero voxels in a
non-boolean volume is silently skipped with no attribute added. The code
instead raises: `fastremap.renumber`'s mapping contains only ids present
in the volume, so `remapping[label]` (line 115) raises KeyError for the
absent label 2 before the `slices is None` skip guard (line 117) can
fire — that guard is unreachable for renumbered dense labels. -/
theorem absent_label_raises_keyerror :
    annotate E0 V0 [S4] vA 1 false false =
      .error "KeyError: skeleton label missing from remapping" := by
  with_unfolding_all rfl

/-- C5 counterexample: a path with a single vertex does not lead to a
silent skip — the padding step `normals[-1]` (line 156) reads the last
element of the empty forward-difference array and raises IndexError,
aborting the whole `annotate` call. -/
theorem short_path_raises_indexerror :
    annotate E0 V0 [S5] vA 1 false false =
      .error "IndexError: direction array of a path with fewer than 2 vertices is empty" := by
  with_unfolding_all rfl

/-- C6 counterexample: the boundary guard (line 164) compares with a
strict `>` against `shape` itself, so the vertex rasterizing to
`(4,0,0)` — whose x coordinate EQUALS the crop shape x extent 4 — is not
skipped: the sampling log of the run lists it. The claim's half-open
range `[0, crop_shape)` is wrong on the upper side. -/
theorem vertex_at_crop_shape_is_sampled :
    clampBox (bboxFromSlices ((1, 3), (0, 1), (0, 1))).grow1 =
      ⟨(0, 0, 0), (4, 2, 2)⟩ ∧
    (cropMask (renumber V0).1 ⟨(0, 0, 0), (4, 2, 2)⟩ 1).shape = (4, 1, 1) ∧
    outOfCrop (4, 0, 0) (4, 1, 1) = false ∧
    annotate E0 V0 [S6] vA 1 false false =
      .ok ([S6A], [[(2, 0, 0), (3, 0, 0), (4, 0, 0)]]) :=
  ⟨by with_unfolding_all rfl, by with_unfolding_all rfl, rfl,
   by with_unfolding_all rfl⟩

/-- C7 counterexample: a non-positive smoothing window is NOT reported
for every input — `moving_average` is only reached from inside the path
loop (line 157), so a call whose skeleton collection is empty never
raises and completes normally even with window 0. -/
theorem window_zero_no_error_on_empty_collection :
    annotate E0 V0 [] vA 0 false false = .ok ([], []) := rfl

/-- C5 amended: a decomposed path with fewer than 2 vertices yields no
direction vectors, and rather than being silently skipped it makes the
normals computation fail with an index error (reading `normals[-1]` of
an empty difference array), so `annotate` fails on such a path. -/
theorem computeNormals_short_path_errors (ext : Externals) (window : ℤ)
    (ipath : List IVec3) (h : ipath.length < 2) :
    computeNormals ext window ipath =
      .error "IndexError: direction array of a path with fewer than 2 vertices is empty" := by
  cases ipath with
  | nil => rfl
  | cons v t =>
    cases t with
    | nil => rfl
    | cons w u => exact absurd h (by simp [List.length_cons])

theorem computeNormals_short_path_errors_witness :
    computeNormals E0 1 [((1 : ℤ), (0 : ℤ), (0 : ℤ))] =
      .error "IndexError: direction array of a path with fewer than 2 vertices is empty" :=
  computeNormals_short_path_errors E0 1 [(1, 0, 0)] (by decide)

/-- C6 amended: the vertex-loop boundary guard (line 164) admits a vertex
iff every coordinate lies in the CLOSED interval `[0, shape]` — the upper
comparison is `>` against `shape`, not `>= shape`, so a vertex whose
coordinate equals the crop shape on some axis is NOT skipped. -/
theorem outOfCrop_false_iff (v s : IVec3) :
    outOfCrop v s = false ↔
      (0 ≤ v.1 ∧ 0 ≤ v.2.1 ∧ 0 ≤ v.2.2 ∧
       v.1 ≤ s.1 ∧ v.2.1 ≤ s.2.1 ∧ v.2.2 ≤ s.2.2) := by
  simp [outOfCrop, not_lt]
  tauto

/-- C7 amended: the smoother itself always rejects a non-positive window
immediately (line 193), before any computation; but `annotate` only calls
it from inside the path loop, so the error surfaces only when some
skeleton actually reaches path smoothing (see the counterexample for a
call that never does). -/
theorem movingAverage_rejects_nonpositive_window (a : List Vec3) (n : ℤ)
    (h : n ≤ 0) :
    movingAverage a n = .error "ValueError: Window size must be >= 1." := by
  unfold movingAverage
  rw [if_pos h]

theorem movingAverage_rejects_nonpositive_window_witness :
    movingAverage [((1 : ℚ), (0 : ℚ), (0 : ℚ))] 0 =
      .error "ValueError: Window size must be >= 1." :=
  movingAverage_rejects_nonpositive_window [(1, 0, 0)] 0 (by decide)

theorem cumsumFrom_length (s : Vec3) (l : List Vec3) :
    (cumsumFrom s l).length = l.length := by
  induction l generalizing s with
  | nil => rfl
  | cons x xs ih => simpa [cumsumFrom] using ih (s + x)

/-- C8: for every input of `N ≥ 1` vectors and window `1 ≤ n ≤ N`, the
rolling-average smoother returns exactly `N` vectors (edge-padding plus
the prefix-sum moving mean preserve length), never a truncated sequence. -/
theorem movingAverage_preserves_length (a : List Vec3) (n : ℤ)
    (h1 : 1 ≤ n) (h2 : n ≤ (a.length : ℤ)) :
    (movingAverage a n).map List.length = .ok a.length := by
  unfold movingAverage
  rw [if_neg (by omega)]
  by_cases hn1 : n = 1
  · rw [if_pos hn1]
    rfl
  · rw [if_neg hn1]
    cases a with
    | nil => simp at h2; omega
    | cons a0 rest =>
      simp only [Except.map, List.length_map, List.length_range, cumsum,
        cumsumFrom_length, List.length_append, List.length_replicate,
        List.length_cons]
      have hn2 : 2 ≤ n := by omega
      have hlen : (n : ℤ) ≤ (rest.length : ℤ) + 1 := by
        simpa [List.length_cons] using h2
      congr 1
      omega

theorem movingAverage_preserves_length_witness :
    (movingAverage [((1 : ℚ), (0 : ℚ), (0 : ℚ)), (2, 0, 0), (3, 0, 0)]
      2).map List.length = .ok 3 :=
  movingAverage_preserves_length [(1, 0, 0), (2, 0, 0), (3, 0, 0)] 2
    (by decide) (by decide)

/-- C10: in repair mode the per-vertex arrays are the skeleton's existing
`cross_sectional_area` / `cross_sectional_area_contacts` attributes
(lines 139-140), never freshly allocated — so a skeleton that reaches the
sampling stage without them makes the call fail with an attribute-access
error instead of annotating from scratch or skipping. -/
theorem repair_mode_requires_existing_arrays (ext : Externals)
    (vol : Volume) (aniso : Vec3) (window : ℤ) (fillHoles : Bool)
    (roi : Bbox) (label : ℕ) (skel : Skeleton)
    (h : skel.cross_sectional_area = none) :
    processCore ext vol aniso window fillHoles true roi label skel =
      .error "AttributeError: cross_sectional_area" := by
  simp [processCore, getArrays, h]

theorem repair_mode_requires_existing_arrays_witness :
    processCore E0 V0 vA 1 false true ⟨(0, 0, 0), (4, 2, 2)⟩ 1 S0 =
      .error "AttributeError: cross_sectional_area" :=
  repair_mode_requires_existing_arrays E0 V0 vA 1 false
    ⟨(0, 0, 0), (4, 2, 2)⟩ 1 S0 rfl

theorem anySwap (l1 : List α) (l2 : List β) (p : α → β → Bool) :
    (l1.any fun a => l2.any fun b => p a b) =
    (l2.any fun b => l1.any fun a => p a b) := by
  rw [Bool.eq_iff_iff]
  simp only [List.any_eq_true]
  constructor
  · rintro ⟨a, ha, b, hb, hp⟩
    exact ⟨b, hb, a, ha, hp⟩
  · rintro ⟨b, hb, a, ha, hp⟩
    exact ⟨a, ha, b, hb, hp⟩

theorem occX_transpose (v : Volume) (L i : ℕ) :
    occX v.transpose L i = occZ v L i := by
  simp only [occX, occZ, Volume.transpose]
  exact anySwap _ _ _

theorem occY_transpose (v : Volume) (L j : ℕ) :
    occY v.transpose L j = occY v L j := by
  simp only [occY, Volume.transpose]
  exact anySwap _ _ _

theorem occZ_transpose (v : Volume) (L k : ℕ) :
    occZ v.transpose L k = occX v L k := by
  simp only [occZ, occX, Volume.transpose]
  exact anySwap _ _ _

theorem axX_transpose (v : Volume) (L : ℕ) :
    axX v.transpose L = axZ v L := by
  have h : occX v.transpose L = occZ v L := funext (occX_transpose v L)
  simp only [axX, axZ, h]
  rfl

theorem axY_transpose (v : Volume) (L : ℕ) :
    axY v.transpose L = axY v L := by
  have h : occY v.transpose L = occY v L := funext (occY_transpose v L)
  simp only [axY, h]
  rfl

theorem axZ_transpose (v : Volume) (L : ℕ) :
    axZ v.transpose L = axX v L := by
  have h : occZ v.transpose L = occX v L := funext (occZ_transpose v L)
  simp only [axZ, axX, h]
  rfl

theorem revSlice_revSlice (s : Slice3) : revSlice (revSlice s) = s := rfl

theorem sliceFor_transpose (v : Volume) (L : ℕ) :
    sliceFor v.transpose L = (sliceFor v L).map revSlice := by
  unfold sliceFor
  rw [axX_transpose, axY_transpose, axZ_transpose]
  cases hx : axRange (axX v L) <;> cases hy : axRange (axY v L) <;>
    cases hz : axRange (axZ v L) <;> simp [revSlice]

theorem foldl_le_iff {α : Type} (g : ℕ → α → ℕ) (P : α → Prop) (n : ℕ)
    (hg : ∀ m x, g m x ≤ n ↔ m ≤ n ∧ P x) :
    ∀ (l : List α) (a : ℕ), l.foldl g a ≤ n ↔ a ≤ n ∧ ∀ x ∈ l, P x := by
  intro l
  induction l with
  | nil => intro a; simp
  | cons x xs ih =>
    intro a
    rw [List.foldl_cons, ih (g a x), hg a x]
    simp only [List.mem_cons]
    constructor
    · rintro ⟨⟨ha, hx⟩, hxs⟩
      refine ⟨ha, ?_⟩
      rintro y (rfl | hy)
      · exact hx
      · exact hxs y hy
    · rintro ⟨ha, hall⟩
      exact ⟨⟨ha, hall x (Or.inl rfl)⟩, fun y hy => hall y (Or.inr hy)⟩

theorem maxLabel_le_iff (v : Volume) (n : ℕ) :
    maxLabel v ≤ n ↔
      ∀ i ∈ List.range v.sx, ∀ j ∈ List.range v.sy,
        ∀ k ∈ List.range v.sz, v.data i j k ≤ n := by
  have hmid : ∀ (i m j : ℕ),
      ((List.range v.sz).foldl (fun m3 k => max m3 (v.data i j k)) m ≤ n) ↔
        m ≤ n ∧ ∀ k ∈ List.range v.sz, v.data i j k ≤ n := by
    intro i m j
    exact foldl_le_iff (fun m3 k => max m3 (v.data i j k))
      (fun k => v.data i j k ≤ n) n (fun m3 k => Nat.max_le) _ m
  have hout : ∀ (m i : ℕ),
      ((List.range v.sy).foldl (fun m2 j =>
        (List.range v.sz).foldl (fun m3 k => max m3 (v.data i j k)) m2)
          m ≤ n) ↔
        m ≤ n ∧ ∀ j ∈ List.range v.sy, ∀ k ∈ List.range v.sz,
          v.data i j k ≤ n := by
    intro m i
    exact foldl_le_iff _
      (fun j => ∀ k ∈ List.range v.sz, v.data i j k ≤ n) n
      (fun m2 j => hmid i m2 j) _ m
  unfold maxLabel
  rw [foldl_le_iff _
    (fun i => ∀ j ∈ List.range v.sy, ∀ k ∈ List.range v.sz,
      v.data i j k ≤ n) n (fun m i => hout m i)]
  simp

theorem maxLabel_transpose (v : Volume) :
    maxLabel v.transpose = maxLabel v := by
  apply le_antisymm
  · rw [maxLabel_le_iff]
    intro i hi j hj k hk
    exact (maxLabel_le_iff v (maxLabel v)).mp le_rfl k hk j hj i hi
  · rw [maxLabel_le_iff]
    intro i hi j hj k hk
    exact (maxLabel_le_iff v.transpose (maxLabel v.transpose)).mp
      le_rfl k hk j hj i hi

theorem scipyFindObjects_transpose (v : Volume) :
    scipyFindObjects v.transpose =
      (scipyFindObjects v).map (fun o => o.map revSlice) := by
  unfold scipyFindObjects
  rw [maxLabel_transpose, List.map_map]
  congr 1
  funext m
  exact sliceFor_transpose v (m + 1)

theorem find_objects_eq_scipy (v : Volume) :
    find_objects v = scipyFindObjects v := by
  unfold find_objects
  cases hf : v.fortran with
  | false => simp
  | true =>
    rw [if_neg (by decide)]
    rw [scipyFindObjects_transpose, List.map_map]
    have hcomp : ((fun o : Option Slice3 => o.map revSlice) ∘
        fun o : Option Slice3 => o.map revSlice) = id := by
      funext o
      cases o with
      | none => rfl
      | some s => simp [revSlice_revSlice]
    rw [hcomp, List.map_id]

/-- C9: the Region Locator returns the same sequence of bounding boxes,
in the original untransposed axis order, whether the volume is stored
C-contiguously or Fortran-contiguously: both paths of `find_objects`
equal the direct scipy result, so the internal transposition is
invisible to callers. -/
theorem find_objects_layout_invariant (v : Volume) (b1 b2 : Bool) :
    find_objects { v with fortran := b1 } =
      find_objects { v with fortran := b2 } := by
  rw [find_objects_eq_scipy, find_objects_eq_scipy]
  rfl

theorem get?_some_lt {α : Type} (l : List α) (i : ℕ) (x : α)
    (h : l.get? i = some x) : i < l.length := by
  induction l generalizing i with
  | nil => exact Option.noConfusion h
  | cons y ys ih =>
    cases i with
    | zero => simp
    | succ n => simpa using ih n h

theorem get?_set_self {α : Type} (l : List α) (i : ℕ) (x : α)
    (h : i < l.length) : (l.set i x).get? i = some x := by
  induction l generalizing i with
  | nil => simp at h
  | cons y ys ih =>
    cases i with
    | zero => rfl
    | succ n => simpa using ih n (by simpa using h)

theorem get?_set_other {α : Type} (l : List α) (i j : ℕ) (x : α)
    (h : i ≠ j) : (l.set i x).get? j = l.get? j := by
  induction l generalizing i j with
  | nil => rfl
  | cons y ys ih =>
    cases i with
    | zero =>
      cases j with
      | zero => exact absurd rfl h
      | succ m => rfl
    | succ n =>
      cases j with
      | zero => rfl
      | succ m => simpa using ih n m (fun hnm => h (by rw [hnm]))

theorem readE_ok {α : Type} (l : List α) (i : ℕ) (msg : String) (x : α)
    (h : readE l i msg = .ok x) : l.get? i = some x := by
  unfold readE at h
  cases hg : l.get? i with
  | some y =>
    rw [hg] at h
    injection h with h1
    rw [h1]
  | none =>
    rw [hg] at h
    exact Except.noConfusion h

theorem lastIdxOf_sound (l : List IVec3) (c : IVec3) :
    ∀ i, lastIdxOf l c = some i → l.get? i = some c := by
  induction l with
  | nil => intro i h; exact Option.noConfusion h
  | cons v vs ih =>
    intro i h
    unfold lastIdxOf at h
    cases hm : lastIdxOf vs c with
    | some i0 =>
      rw [hm] at h
      injection h with h1
      subst h1
      exact ih i0 hm
    | none =>
      rw [hm] at h
      by_cases hv : v = c
      · rw [if_pos hv] at h
        injection h with h1
        subst h1
        simpa using hv
      · rw [if_neg hv] at h
        exact Option.noConfusion h

theorem buildMapping_inj (verts : List IVec3) (c c' : IVec3) (i : ℕ)
    (h1 : buildMapping verts c = some i)
    (h2 : buildMapping verts c' = some i) : c = c' := by
  have e1 := lastIdxOf_sound verts c i h1
  have e2 := lastIdxOf_sound verts c' i h2
  rw [e1] at e2
  injection e2

theorem goodInv_init (mapping : IVec3 → Option ℕ) (as : List ℚ)
    (cs : List ℕ) : goodInv mapping ⟨as, cs, []⟩ :=
  ⟨fun c => by simp, fun c hc => absurd hc (List.not_mem_nil c)⟩

theorem visitVertex_good (ext : Externals) (binimg : Mask) (aniso : Vec3)
    (mapping : IVec3 → Option ℕ) (normals : List Vec3)
    (st st' : SampState) (iv : ℕ × IVec3)
    (hsamp : ∀ m w nr an, (ext.sampler m w nr an).1 ≠ 0)
    (hinj : ∀ c c' i, mapping c = some i → mapping c' = some i → c = c')
    (hg : goodInv mapping st)
    (h : visitVertex ext false binimg aniso mapping normals st iv = .ok st') :
    goodInv mapping st' := by
  unfold visitVertex at h
  split at h
  · injection h with h1
    subst h1
    exact hg
  · split at h
    · exact Except.noConfusion h
    · split at h
      · exact Except.noConfusion h
      · split at h
        · exact Except.noConfusion h
        · split at h
          · exact Except.noConfusion h
          · rename_i hoc x1 idx hm x2 normal hn x3 a ha x4 cond hcond
            by_cases haz : a = 0
            · rw [if_pos haz] at hcond
              injection hcond with hc
              rw [← hc] at h
              rw [if_pos rfl] at h
              split at h
              · exact Except.noConfusion h
              · rename_i cs hw
                injection h with h1
                subst h1
                have hga : st.areas.get? idx = some a :=
                  readE_ok st.areas idx _ a ha
                have hlt : idx < st.areas.length := get?_some_lt _ _ _ hga
                have hnotmem : iv.2 ∉ st.log := by
                  intro hmem
                  obtain ⟨i', a', hmi, hai, hne⟩ := hg.2 iv.2 hmem
                  rw [hm] at hmi
                  injection hmi with hii
                  subst hii
                  rw [hga] at hai
                  injection hai with haa
                  exact hne (by rw [← haa, haz])
                constructor
                · intro c
                  rw [List.count_append]
                  by_cases hc2 : c = iv.2
                  · subst hc2
                    have h0 : st.log.count iv.2 = 0 :=
                      List.count_eq_zero.mpr hnotmem
                    simp [h0, List.count_cons]
                  · have h1 : ([iv.2] : List IVec3).count c = 0 := by
                      simp [List.count_cons]
                      exact fun he => hc2 he.symm
                    rw [h1]
                    simpa using hg.1 c
                · intro c hc
                  rw [List.mem_append] at hc
                  by_cases hc2 : c = iv.2
                  · subst hc2
                    refine ⟨idx, (ext.sampler binimg iv.2 normal aniso).1,
                      hm, ?_, hsamp _ _ _ _⟩
                    exact get?_set_self _ _ _ hlt
                  · rcases hc with hc | hc
                    · obtain ⟨i', a', hmi, hai, hne⟩ := hg.2 c hc
                      by_cases hii : i' = idx
                      · subst hii
                        exact absurd (hinj c iv.2 i' hmi hm) hc2
                      · exact ⟨i', a', hmi, by
                          rw [get?_set_other _ _ _ _ (fun he => hii he.symm)]
                          exact hai, hne⟩
                    · simp at hc
                      exact absurd hc hc2
            · rw [if_neg haz] at hcond
              rw [if_neg (by decide)] at hcond
              injection hcond with hc
              rw [← hc] at h
              rw [if_neg (by decide)] at h
              injection h with h1
              subst h1
              exact hg

theorem foldME_pres {σ α : Type} (Inv : σ → Prop)
    (f : σ → α → Except String σ)
    (hf : ∀ s x s2, f s x = .ok s2 → Inv s → Inv s2) :
    ∀ (l : List α) (s s' : σ), foldME f s l = .ok s' → Inv s → Inv s' := by
  intro l
  induction l with
  | nil =>
    intro s s' h hs
    unfold foldME at h
    injection h with h1
    subst h1
    exact hs
  | cons x xs ih =>
    intro s s' h hs
    unfold foldME at h
    cases hx : f s x with
    | error e => rw [hx] at h; exact Except.noConfusion h
    | ok s2 =>
      rw [hx] at h
      exact ih s2 s' h (hf s x s2 hx hs)

theorem runPath_good (ext : Externals) (binimg : Mask) (aniso : Vec3)
    (mapping : IVec3 → Option ℕ) (window : ℤ) (minpt : IVec3)
    (st st' : SampState) (path : List Vec3)
    (hsamp : ∀ m w nr an, (ext.sampler m w nr an).1 ≠ 0)
    (hinj : ∀ c c' i, mapping c = some i → mapping c' = some i → c = c')
    (hg : goodInv mapping st)
    (h : runPath ext false binimg aniso mapping window minpt st path
      = .ok st') :
    goodInv mapping st' := by
  simp only [runPath] at h
  split at h
  · exact Except.noConfusion h
  · exact foldME_pres (goodInv mapping) _
      (fun s x s2 hfx hs =>
        visitVertex_good ext binimg aniso mapping _ s s2 x hsamp hinj hs hfx)
      _ _ _ h hg

theorem getArrays_false (skel : Skeleton) (n : ℕ) :
    getArrays false skel n =
      .ok (List.replicate n (0 : ℚ), List.replicate n (0 : ℕ)) := rfl

theorem processSkeleton_samples_once (ext : Externals) (vol : Volume)
    (remap : ℕ → Option ℕ) (allSlices : List (Option Slice3))
    (aniso : Vec3) (window : ℤ) (fillHoles : Bool) (skel s' : Skeleton)
    (log : List IVec3)
    (hsamp : ∀ m w nr an, (ext.sampler m w nr an).1 ≠ 0)
    (h : processSkeleton ext vol remap allSlices aniso window fillHoles
      false skel = .ok (s', log)) :
    ∀ c, log.count c ≤ 1 := by
  simp only [processSkeleton] at h
  by_cases hl : (if vol.isBool = true then 1 else skel.id) = 0
  · rw [if_pos hl] at h
    injection h with h1
    injection h1 with h2 h3
    subst h3
    intro c
    simp
  · rw [if_neg hl] at h
    cases hr : remap (if vol.isBool = true then 1 else skel.id) with
    | none =>
      rw [hr] at h
      exact Except.noConfusion h
    | some label =>
      simp only [hr] at h
      cases hs2 : allSlices.get? (label - 1) with
      | none =>
        rw [hs2] at h
        exact Except.noConfusion h
      | some o =>
        cases o with
        | none =>
          simp only [hs2] at h
          injection h with h1
          injection h1 with h2 h3
          subst h3
          intro c
          simp
        | some slcs =>
          simp only [hs2] at h
          by_cases hv : (bboxFromSlices slcs).volume ≤ 1
          · rw [if_pos hv] at h
            injection h with h1
            injection h1 with h2 h3
            subst h3
            intro c
            simp
          · rw [if_neg hv] at h
            simp only [processCore, getArrays_false] at h
            split at h
            · exact Except.noConfusion h
            · rename_i stF hfold
              injection h with h1
              injection h1 with h2 h3
              subst h3
              intro c
              refine (foldME_pres (goodInv (buildMapping
                  (List.map (fun p => rastV aniso p -
                    (clampBox (bboxFromSlices slcs).grow1).minpt)
                    skel.vertices))) _
                (fun s x s2 hfx hs => runPath_good _ _ _ _ _ _ s s2 x
                  hsamp
                  (fun c1 c2 i h1 h2 => buildMapping_inj _ c1 c2 i h1 h2)
                  hs hfx)
                _ _ _ hfold
                ⟨fun c2 => by simp, fun c2 hc =>
                  absurd hc (List.not_mem_nil c2)⟩).1 c

theorem mapME_mem_ok {α β : Type} (f : α → Except String β) :
    ∀ (l : List α) (res : List β), mapME f l = .ok res →
      ∀ b ∈ res, ∃ a, f a = .ok b := by
  intro l
  induction l with
  | nil =>
    intro res h b hb
    unfold mapME at h
    injection h with h1
    subst h1
    exact absurd hb (List.not_mem_nil b)
  | cons x xs ih =>
    intro res h b hb
    unfold mapME at h
    cases hx : f x with
    | error e => rw [hx] at h; exact Except.noConfusion h
    | ok y =>
      rw [hx] at h
      cases hxs : mapME f xs with
      | error e => rw [hxs] at h; exact Except.noConfusion h
      | ok ys =>
        rw [hxs] at h
        injection h with h1
        subst h1
        rcases List.mem_cons.mp hb with rfl | hb2
        · exact ⟨x, hx⟩
        · exact ih ys hxs b hb2

/-- C3 (amended): within one normal-mode `annotate` call, provided the
sampling primitive never reports a zero area, the primitive is invoked at
most once per unique rasterized voxel coordinate per skeleton (the
written area keeps the representative entry non-zero, so the guard skips
later colocated visits). The other half of the original claim is false:
only the representative (last) colocated vertex's array entry is written
— see the counterexample. -/
theorem annotate_samples_each_voxel_at_most_once (ext : Externals)
    (vol : Volume) (skels : List Skeleton) (aniso : Vec3) (window : ℤ)
    (fillHoles : Bool) (ys : List Skeleton) (logs : List (List IVec3))
    (hsamp : ∀ m w nr an, (ext.sampler m w nr an).1 ≠ 0)
    (h : annotate ext vol skels aniso window fillHoles false
      = .ok (ys, logs)) :
    ∀ lg ∈ logs, ∀ c, lg.count c ≤ 1 := by
  simp only [annotate] at h
  split at h
  · exact Except.noConfusion h
  · rename_i pairs hmap
    injection h with h1
    injection h1 with h2 h3
    subst h3
    intro lg hlg c
    rw [List.mem_map] at hlg
    obtain ⟨p, hp, hplg⟩ := hlg
    obtain ⟨skel, hskel⟩ := mapME_mem_ok _ _ _ hmap p hp
    subst hplg
    exact processSkeleton_samples_once _ _ _ _ aniso window fillHoles
      skel p.1 p.2 hsamp hskel c

theorem finishSkel_vertices (s : Skeleton) (st : SampState) :
    (finishSkel s st).vertices = s.vertices := rfl

theorem finishSkel_paths (s : Skeleton) (st : SampState) :
    (finishSkel s st).paths = s.paths := rfl

theorem finishSkel_has_attr (s : Skeleton) (st : SampState) :
    (finishSkel s st).extra_attributes.any
      (fun p => p.id == "cross_sectional_area") = true := by
  unfold finishSkel
  by_cases hp : s.extra_attributes.any
      (fun p => p.id == "cross_sectional_area") = true
  · simp [hp]
  · simp [hp, List.any_append, csaProp]

theorem finishSkel_stable (s : Skeleton) (st : SampState) :
    finishSkel (finishSkel s st) st = finishSkel s st := by
  have h := finishSkel_has_attr s st
  conv_lhs => rw [finishSkel]
  rw [if_pos h]
  rfl

theorem processCore_idem (ext : Externals) (vol : Volume) (aniso : Vec3)
    (window : ℤ) (fillHoles : Bool) (roi : Bbox) (label : ℕ)
    (s s2 : Skeleton) (log : List IVec3)
    (h : processCore ext vol aniso window fillHoles false roi label s
      = .ok (s2, log)) :
    processCore ext vol aniso window fillHoles false roi label s2
      = .ok (s2, log) := by
  simp only [processCore, getArrays_false] at h ⊢
  split at h
  · exact Except.noConfusion h
  · rename_i stF hfold
    injection h with h1
    injection h1 with h2 h3
    subst h2
    subst h3
    simp only [finishSkel_vertices, finishSkel_paths, hfold]
    rw [finishSkel_stable]

theorem processCore_ok_id (ext : Externals) (vol : Volume) (aniso : Vec3)
    (window : ℤ) (fillHoles repair : Bool) (roi : Bbox) (label : ℕ)
    (s s2 : Skeleton) (log : List IVec3)
    (h : processCore ext vol aniso window fillHoles repair roi label s
      = .ok (s2, log)) :
    s2.id = s.id := by
  simp only [processCore] at h
  split at h
  · exact Except.noConfusion h
  · split at h
    · exact Except.noConfusion h
    · rename_i stF hfold
      injection h with h1
      injection h1 with h2 h3
      rw [← h2]
      rfl

theorem processSkeleton_idem (ext : Externals) (vol : Volume)
    (remap : ℕ → Option ℕ) (allSlices : List (Option Slice3))
    (aniso : Vec3) (window : ℤ) (fillHoles : Bool) (s s2 : Skeleton)
    (log : List IVec3)
    (h : processSkeleton ext vol remap allSlices aniso window fillHoles
      false s = .ok (s2, log)) :
    processSkeleton ext vol remap allSlices aniso window fillHoles
      false s2 = .ok (s2, log) := by
  simp only [processSkeleton] at h ⊢
  by_cases hl : (if vol.isBool = true then 1 else s.id) = 0
  · rw [if_pos hl] at h
    injection h with h1
    injection h1 with h2 h3
    subst h2
    subst h3
    rw [if_pos hl]
  · rw [if_neg hl] at h
    cases hr : remap (if vol.isBool = true then 1 else s.id) with
    | none => rw [hr] at h; exact Except.noConfusion h
    | some label =>
      simp only [hr] at h
      cases hs2 : allSlices.get? (label - 1) with
      | none => rw [hs2] at h; exact Except.noConfusion h
      | some o =>
        cases o with
        | none =>
          simp only [hs2] at h
          injection h with h1
          injection h1 with h2 h3
          subst h2
          subst h3
          rw [if_neg hl]
          simp only [hr, hs2]
        | some slcs =>
          simp only [hs2] at h
          by_cases hv : (bboxFromSlices slcs).volume ≤ 1
          · rw [if_pos hv] at h
            injection h with h1
            injection h1 with h2 h3
            subst h2
            subst h3
            rw [if_neg hl]
            simp only [hr, hs2]
            rw [if_pos hv]
          · rw [if_neg hv] at h
            have hid : s2.id = s.id :=
              processCore_ok_id ext vol aniso window fillHoles false _ _
                s s2 log h
            rw [hid, if_neg hl]
            simp only [hr, hs2]
            rw [if_neg hv]
            exact processCore_idem ext vol aniso window fillHoles _ _
              s s2 log h

theorem mapME_idem_aux (f : Skeleton → Except String (Skeleton × List IVec3))
    (hf : ∀ s s2 lg, f s = .ok (s2, lg) → f s2 = .ok (s2, lg)) :
    ∀ (l : List Skeleton) (pairs : List (Skeleton × List IVec3)),
      mapME f l = .ok pairs → mapME f (pairs.map Prod.fst) = .ok pairs := by
  intro l
  induction l with
  | nil =>
    intro pairs h
    unfold mapME at h
    injection h with h1
    subst h1
    rfl
  | cons x xs ih =>
    intro pairs h
    unfold mapME at h
    cases hx : f x with
    | error e => rw [hx] at h; exact Except.noConfusion h
    | ok y =>
      rw [hx] at h
      cases hxs : mapME f xs with
      | error e => rw [hxs] at h; exact Except.noConfusion h
      | ok ys =>
        rw [hxs] at h
        injection h with h1
        subst h1
        have hfy : f y.1 = .ok (y.1, y.2) := hf x y.1 y.2 hx
        show mapME f (y.1 :: ys.map Prod.fst) = .ok (y :: ys)
        unfold mapME
        simp only [hfy, ih ys hxs]

/-- C2 (amended): calling `annotate` twice in normal mode with identical
arguments produces results identical to calling it once — but not for
the claimed reason. The second call allocates fresh zero arrays and
deterministically recomputes every vertex (no vertex is skipped because
of values stored by the first call, see the counterexample); the outputs
coincide because the recomputation is identical. -/
theorem annotate_normal_mode_idempotent (ext : Externals) (vol : Volume)
    (skels : List Skeleton) (aniso : Vec3) (window : ℤ)
    (fillHoles : Bool) (ys : List Skeleton) (logs : List (List IVec3))
    (h : annotate ext vol skels aniso window fillHoles false
      = .ok (ys, logs)) :
    annotate ext vol ys aniso window fillHoles false = .ok (ys, logs) := by
  simp only [annotate] at h ⊢
  split at h
  · exact Except.noConfusion h
  · rename_i pairs hmap
    injection h with h1
    injection h1 with h2 h3
    subst h2
    subst h3
    have h4 := mapME_idem_aux _
      (fun s s2 lg hfs => processSkeleton_idem _ _ _ _ _ _ _ s s2 lg hfs)
      _ pairs hmap
    simp only [h4]

theorem annotate_normal_mode_idempotent_witness :
    annotate E0 V0 [S0A] vA 1 false false =
      .ok ([S0A], [[(1, 0, 0), (2, 0, 0)]]) :=
  annotate_normal_mode_idempotent E0 V0 [S0] vA 1 false [S0A]
    [[(1, 0, 0), (2, 0, 0)]] (by with_unfolding_all rfl)

theorem annotate_samples_each_voxel_at_most_once_witness :
    ([((1 : ℤ), (0 : ℤ), (0 : ℤ)), (2, 0, 0)] : List IVec3).count
      (1, 0, 0) ≤ 1 :=
  annotate_samples_each_voxel_at_most_once E0 V0 [S0] vA 1 false
    [S0A] [[(1, 0, 0), (2, 0, 0)]]
    (fun m w nr an => by norm_num [E0])
    (by with_unfolding_all rfl)
    [(1, 0, 0), (2, 0, 0)] (by simp) (1, 0, 0)
